import Mathlib

/-!
Verification of the MT4 MCP bridge against its specification.

The development shallowly embeds the relevant functions of the repository:

* `ExtractJsonValue` from `MT4_Files/MCPBridge.mq4` (the ad hoc JSON value
  extractor used by the terminal-side Expert Advisor);
* the `GET /api/positions` flat key=value decoder, the `POST /api/order` and
  `POST /api/close` handlers, and the helpers `readMT4File` / `writeMT4File`
  and `compileEA` from `windows-server/server.js` and its extended variant;
* `MT4MCPServer.placeOrder`, `MT4MCPServer.syncEA` and the tool-dispatch
  request handler from `src/index.ts`.

Strings are modelled as Lean `String`s; the character-level loops of the
source are translated to structurally recursive functions over `List Char`
so that every definition evaluates inside the kernel.  Filesystem and
network effects are modelled by explicit oracles (`Except` values for calls
that can fail) and by explicit event traces where ordering matters.
-/

namespace MT4Bridge

/-! ## String utilities

Kernel-computable substitutes for the string operations the JavaScript and
MQL4 sources use (`indexOf`/`StringFind`, `includes`, `split`, `trim`,
`startsWith`).  They operate on `List Char` and therefore reduce with
`decide`.
-/

/-- Boolean test that `pat` is a prefix of the first argument. -/
def hasPrefixB : List Char → List Char → Bool
  | _, [] => true
  | [], _ :: _ => false
  | c :: cs, p :: ps => c == p && hasPrefixB cs ps

/-- Boolean test that `pat` occurs as a contiguous substring. -/
def subAt : List Char → List Char → Bool
  | [], pat => pat.isEmpty
  | c :: rest, pat => hasPrefixB (c :: rest) pat || subAt rest pat

/-- JavaScript `s.includes(pat)` on Lean strings. -/
def strContains (s pat : String) : Bool := subAt s.data pat.data

/-- JavaScript `s.startsWith(pat)` on Lean strings. -/
def strStartsWith (s pat : String) : Bool := hasPrefixB s.data pat.data

/-- Index of the first occurrence of `pat` (MQL4 `StringFind`, 0-based,
`none` for "not found", i.e. the -1 case of the source). -/
def findSubIdx (pat : List Char) : List Char → Option Nat
  | [] => if pat.isEmpty then some 0 else none
  | c :: rest =>
    if hasPrefixB (c :: rest) pat then some 0
    else (findSubIdx pat rest).map (· + 1)

/-- Split a character list at every occurrence of a single character
(JavaScript `String.prototype.split` with a one-character separator). -/
def splitCh (sep : Char) : List Char → List (List Char)
  | [] => [[]]
  | c :: rest =>
    match splitCh sep rest with
    | [] => []
    | h :: t => if c = sep then [] :: h :: t else (c :: h) :: t

/-- Split at every occurrence of the two-character text backslash-`n`.
This is the separator the server sources actually pass: the JavaScript
expression `split("\\n")` denotes a split on the literal characters
backslash and `n`, not on a newline. -/
def splitBsn : List Char → List (List Char)
  | [] => [[]]
  | '\\' :: 'n' :: rest => [] :: splitBsn rest
  | c :: rest =>
    match splitBsn rest with
    | [] => []
    | h :: t => (c :: h) :: t

/-- Whitespace trimming on both ends (JavaScript `trim`, MQL4-written files
only ever carry plain spaces, tabs, carriage returns and newlines at their
ends, which is exactly `Char.isWhitespace`). -/
def trimChars (cs : List Char) : List Char :=
  ((cs.dropWhile Char.isWhitespace).reverse.dropWhile Char.isWhitespace).reverse

/-- Function `trim` on Lean strings. -/
def strTrim (s : String) : String := String.mk (trimChars s.data)

/-- Numeric value of a digit string (the `parseInt` applied by `compileEA`
to the leading digit run of a regex match). -/
def natOfDigits (cs : List Char) : Nat :=
  cs.foldl (fun n c => 10 * n + (c.toNat - '0'.toNat)) 0

/-- Case-insensitive prefix test, used for the `/i` regex flag. -/
def icPrefixB : List Char → List Char → Bool
  | [], _ => true
  | _ :: _, [] => false
  | p :: ps, c :: cs => p.toLower == c.toLower && icPrefixB ps cs

/-! ## C1: `ExtractJsonValue` (MT4_Files/MCPBridge.mq4, lines 391-426)

The MQL4 source locates `"key":`, advances past it, skips spaces and
double quotes, and then scans forward tracking an `inQuotes` flag: a quote
seen with the flag clear sets the flag (and is kept in the output), a quote
seen with the flag set stops the scan, and a comma or closing brace stops
the scan only while the flag is clear.  The returned value is the scanned
span. -/

/-- The end-of-value scanning loop of `ExtractJsonValue` (source lines
403-423).  Characters are accumulated until the loop breaks; the character
that sets `inQuotes` is accumulated, exactly as `endPos++` does. -/
def scanValue : List Char → Bool → List Char
  | [], _ => []
  | c :: rest, inQuotes =>
    if c = '"' then
      if inQuotes then [] else c :: scanValue rest true
    else if !inQuotes && (c = ',' || c = '\x7d') then []
    else c :: scanValue rest inQuotes

/-- Function `ExtractJsonValue(json, key)` from MCPBridge.mq4: find `"key":`, skip
spaces and quotes, scan to the end of the value. -/
def ExtractJsonValue (json key : String) : String :=
  let searchKey := "\"" ++ key ++ "\":"
  match findSubIdx searchKey.data json.data with
  | none => ""
  | some startPos =>
    let afterKey := json.data.drop (startPos + searchKey.data.length)
    let valStart := afterKey.dropWhile (fun c => c = ' ' || c = '"')
    String.mk (scanValue valStart false)

/-- The input string fixed by the specification for the extractor test. -/
def c1Json : String := "\x7b\"symbol\":\"EURUSD\",\"lots\":0.10\x7d"

/-! ## C2: the `GET /api/positions` decoder (windows-server/server.js,
lines 142-171, and the extended server, lines 293-322)

The handler reads `positions.txt`, splits the trimmed content with
`split("\\n")` — the literal two-character text backslash-`n` — and folds
the resulting "lines" into records, starting a new record at each `---`
line and storing `key=value` pairs otherwise. -/

/-- JavaScript object property assignment: overwrite in place when the key
exists, append otherwise. -/
def objSet (o : List (String × String)) (k v : String) : List (String × String) :=
  if o.any (fun p => p.1 == k) then
    o.map (fun p => if p.1 == k then (k, v) else p)
  else o ++ [(k, v)]

/-- One `key=value` line: `const [key, value] = line.split("=")` followed by
the truthiness guard `if (key && value)` and trimming of both parts. -/
def parseKVLine (cur : List (String × String)) (line : List Char) : List (String × String) :=
  let parts := splitCh '=' line
  match parts[0]?, parts[1]? with
  | some k, some v =>
    if !k.isEmpty && !v.isEmpty then
      objSet cur (String.mk (trimChars k)) (String.mk (trimChars v))
    else cur
  | _, _ => cur

/-- The record-accumulating loop of the positions handler, including the
final push of a non-empty trailing record (source lines 149-165). -/
def posLoop : List (String × String) → List (List Char) → List (List (String × String))
  | cur, [] => if cur.isEmpty then [] else [cur]
  | cur, line :: rest =>
    if line = ['-', '-', '-'] then
      if cur.isEmpty then posLoop [] rest else cur :: posLoop [] rest
    else if line.contains '=' then posLoop (parseKVLine cur line) rest
    else posLoop cur rest

/-- The positions decoder exactly as coded: trim, then split on the literal
text backslash-`n`. -/
def apiPositions (fileContent : String) : List (List (String × String)) :=
  posLoop [] (splitBsn (trimChars fileContent.data))

/-- The same fold over real newline-separated lines.  This is the decoder
the specification describes; the positions file is written by `FileWrite`
in MCPBridge.mq4, which terminates every line with a real line break, never
with the characters backslash-`n`. -/
def apiPositionsLF (fileContent : String) : List (List (String × String)) :=
  posLoop [] (splitCh '\n' (trimChars fileContent.data))

/-- A positions file with three `---`-separated blocks of `key=value`
lines, in the exact shape `WritePositionsInfo` produces (modulo the
`TotalPositions` header, which is irrelevant to the record count). -/
def c2File : String :=
  "Ticket=1\nLots=0.10\n---\nTicket=2\nLots=0.20\n---\nTicket=3\nLots=0.30\n---"

/-! ## C3 and C7: the `POST /api/order` and `POST /api/close` handlers
(windows-server/server.js lines 117-139 and 174-196)

Each handler writes the command file, awaits a fixed
`setTimeout(..., 1000)` delay, then tries to read and JSON-parse the result
file; a failing read or parse is answered with a generic acknowledgment.
The filesystem is an oracle: `writeRes` is the outcome of `writeMT4File`,
`readParse` the combined outcome of `readMT4File` plus `JSON.parse`.  The
second component of the result is the trace of effects the handler
performs, in order. -/

/-- Effects performed by an order/close request, in program order. -/
inductive Eff where
  | writeCmd : String → Eff
  | sleep : Nat → Eff
  | readRes : String → Eff
deriving DecidableEq

/-- The JSON body sent by `res.status(...).json(...)`, restricted to the
fields these handlers emit. -/
structure HttpResp where
  status : Nat
  success : Option Bool := none
  message : Option String := none
  result : Option String := none
  errMsg : Option String := none
deriving DecidableEq

/-- Handler of `POST /api/order`: write `order_commands.txt`, sleep 1000 ms, try
`order_result.txt`; on a failed read return the acknowledgment. -/
def orderEndpoint (writeRes : Except String Unit) (readParse : Except String String) :
    HttpResp × List Eff :=
  match writeRes with
  | Except.error e => ({ status := 500, errMsg := some e }, [Eff.writeCmd "order_commands.txt"])
  | Except.ok _ =>
    let tr := [Eff.writeCmd "order_commands.txt", Eff.sleep 1000, Eff.readRes "order_result.txt"]
    match readParse with
    | Except.ok r => ({ status := 200, success := some true, result := some r }, tr)
    | Except.error _ =>
      ({ status := 200, success := some true, message := some "Order command sent to MT4" }, tr)

/-- Handler of `POST /api/close`: identical shape with the close file pair. -/
def closeEndpoint (writeRes : Except String Unit) (readParse : Except String String) :
    HttpResp × List Eff :=
  match writeRes with
  | Except.error e => ({ status := 500, errMsg := some e }, [Eff.writeCmd "close_commands.txt"])
  | Except.ok _ =>
    let tr := [Eff.writeCmd "close_commands.txt", Eff.sleep 1000, Eff.readRes "close_result.txt"]
    match readParse with
    | Except.ok r => ({ status := 200, success := some true, result := some r }, tr)
    | Except.error _ =>
      ({ status := 200, success := some true, message := some "Close command sent to MT4" }, tr)

/-! ## C6: `readMT4File` / `writeMT4File` (windows-server/server.js lines
21-71, extended server lines 31-88)

Both helpers enumerate the entries of the terminal data directory, consider
only names of exactly 32 characters, and use the first such folder in which
the filesystem operation succeeds.  A folder is modelled by its name, the
readable content of the requested file in it (if any), and whether the
`mkdir`+`writeFile` pair succeeds in it. -/

/-- One entry of the terminal data directory, as seen by a single
read/write call for a fixed file name. -/
structure TermFolder where
  name : String
  file : Option String
  writable : Bool
deriving DecidableEq

/-- The read loop: first 32-character folder whose file read succeeds. -/
def readScan : List TermFolder → Option String
  | [] => none
  | fo :: rest =>
    if fo.name.length = 32 then
      match fo.file with
      | some c => some c
      | none => readScan rest
    else readScan rest

/-- The error text thrown when the read loop exhausts all folders, wrapped
by the enclosing catch exactly as in the source. -/
def readFailMsg (filename : String) : String :=
  "Failed to read MT4 file " ++
    (filename ++ (": File " ++ (filename ++ " not found in any terminal folder")))

/-- Helper `readMT4File(filename)`: first matching folder wins, `content.trim()`
is returned; otherwise the wrapped not-found error is thrown. -/
def readMT4File (folders : List TermFolder) (filename : String) : Except String String :=
  match readScan folders with
  | some c => Except.ok (strTrim c)
  | none => Except.error (readFailMsg filename)

/-- The write loop: first 32-character folder where the write succeeds,
returning its name (the observable target of the side effect). -/
def writeScan : List TermFolder → Option String
  | [] => none
  | fo :: rest =>
    if fo.name.length = 32 ∧ fo.writable then some fo.name else writeScan rest

/-- The error text for a failed write, wrapped by the enclosing catch. -/
def writeFailMsg (filename : String) : String :=
  "Failed to write MT4 file " ++ (filename ++ ": No writable terminal folder found")

/-- Helper `writeMT4File(filename, content)`: write into the first available
terminal folder and stop; otherwise throw the wrapped error. -/
def writeMT4File (folders : List TermFolder) (filename : String) : Except String String :=
  match writeScan folders with
  | some n => Except.ok n
  | none => Except.error (writeFailMsg filename)

/-- A directory listing with no 32-character terminal folder at all. -/
def demoFolders : List TermFolder := [⟨"tester", none, true⟩, ⟨"logs", some "x=1", true⟩]

/-! ## C5 and C10: `compileEA` (extended server, lines 130-222)

`compileEA` spawns MetaEditor and settles its promise with whichever of
three callbacks fires first: the `close` handler (resolve with a result
parsed from the log file), the `error` handler (reject: spawn failure), or
the 30000 ms `setTimeout` (kill the child, reject with the timeout error).
The `close` handler derives `success` exclusively from the `N error(s)`
count found in the log text; the exit code and the existence of the `.ex4`
output are reported but never consulted for `success`. -/

/-- The object `compileEA` resolves with, restricted to the fields the
claims mention. -/
structure CompileResult where
  success : Bool
  compiled : Bool
  exit_code : Int
  errors : Nat
  warnings : Nat
  log : String
deriving DecidableEq

/-- First match of the regex `\d+ <suffix>` (case-insensitive suffix, as
under the `/gi` flags), returning the value of its leading digit run —
exactly what `parseInt(m.match(/\d+/)[0])` extracts from the match. -/
def findCountPat (suffix : List Char) : List Char → Option Nat
  | [] => none
  | c :: rest =>
    if c.isDigit then
      if icPrefixB suffix ((c :: rest).dropWhile Char.isDigit) then
        some (natOfDigits ((c :: rest).takeWhile Char.isDigit))
      else findCountPat suffix rest
    else findCountPat suffix rest

/-- Error count parsed from the log text: first `\d+ error(s)` match. -/
def errCount (s : String) : Option Nat := findCountPat " error(s)".data s.data

/-- Warning count parsed from the log text: first `\d+ warning(s)` match. -/
def warnCount (s : String) : Option Nat := findCountPat " warning(s)".data s.data

/-- The `close` handler of `compileEA` (source lines 157-199): default the
log text when the log file cannot be read, default the counts to `0` when
the patterns are absent, and report `success` iff the error count is 0.
`logRead` is the outcome of reading the log file, `ex4Exists` the outcome
of probing the `.ex4` output, `code` the child exit code. -/
def onCompilerClose (logRead : Option String) (ex4Exists : Bool) (code : Int) : CompileResult :=
  let logContent := logRead.getD "Compilation log not available"
  let errorCount := (errCount logContent).getD 0
  let warningCount := (warnCount logContent).getD 0
  { success := errorCount == 0
    compiled := ex4Exists
    exit_code := code
    errors := errorCount
    warnings := warningCount
    log := logContent }

/-- How the `compileEA` promise settles. -/
inductive CompileOutcome where
  | resolved : CompileResult → CompileOutcome
  | rejected : String → CompileOutcome
deriving DecidableEq

/-- Settlement of the `compileEA` promise: a spawn failure rejects at once;
otherwise the `close` handler (at `tClose` milliseconds) races the 30000 ms
timeout, and whichever fires first settles the promise.  The Boolean
records whether `compiler.kill()` was invoked while the child was still
running.  A `close` arriving exactly at the timeout instant is resolved in
favour of the `close` handler; the claims only concern strict overruns. -/
def compileSettle (spawnErr : Option String) (tClose : Nat) (logRead : Option String)
    (ex4Exists : Bool) (code : Int) : CompileOutcome × Bool :=
  match spawnErr with
  | some msg => (CompileOutcome.rejected ("Failed to start MetaEditor: " ++ msg), false)
  | none =>
    if tClose ≤ 30000 then (CompileOutcome.resolved (onCompilerClose logRead ex4Exists code), false)
    else (CompileOutcome.rejected "Compilation timeout after 30 seconds", true)

/-! ## C4: `MT4MCPServer.syncEA` (src/index.ts, lines 667-734)

`syncEA` creates the local working directories if needed, writes the EA
source and a sync log locally, then attempts the remote upload; a failing
upload is caught, the log is rewritten with manual instructions, and a
normal content response with those instructions is returned.  Paths are
modelled as segment lists (the arguments of `path.join`), the filesystem as
directory and file lists, and the remote call as an `Except` oracle. -/

/-- Events performed by `syncEA`, in program order. -/
inductive SyncEv where
  | mkdirEv : List String → SyncEv
  | writeEv : List String → SyncEv
  | uploadEv : SyncEv
deriving DecidableEq

/-- Local filesystem: existing directories and files (newest write first). -/
structure SyncFs where
  dirs : List (List String)
  files : List (List String × String)
deriving DecidableEq

/-- State effect of `if (!fs.existsSync(d)) fs.mkdirSync(d)`. -/
def ensureDirFs (fs : SyncFs) (d : List String) : SyncFs :=
  if fs.dirs.contains d then fs else { fs with dirs := d :: fs.dirs }

/-- Trace effect of the same conditional `mkdirSync`. -/
def ensureDirEv (fs : SyncFs) (d : List String) : List SyncEv :=
  if fs.dirs.contains d then [] else [SyncEv.mkdirEv d]

/-- Effect of `fs.writeFileSync`: the new version shadows any previous one. -/
def fsWrite (fs : SyncFs) (p : List String) (c : String) : SyncFs :=
  { fs with files := (p, c) :: fs.files }

/-- Read back a file: the most recent write wins. -/
def fsRead : List (List String × String) → List String → Option String
  | [], _ => none
  | (p, c) :: rest, q => if p = q then some c else fsRead rest q

/-- Rendering of a segment path, for the human-readable message texts. -/
def pathStr (p : List String) : String := String.intercalate "/" p

/-- Result of a `syncEA` call: the returned text content, the final local
filesystem, and the ordered event trace. -/
structure SyncOut where
  text : String
  fs : SyncFs
  trace : List SyncEv
deriving DecidableEq

/-- Function `syncEA(args)` with the remote upload modelled by the oracle `upload`
(the `makeApiCall("/api/ea/upload", ...)` outcome) and the current time
rendered as the opaque string `now`. -/
def syncEA (cwd : List String) (nm content now : String) (upload : Except String String)
    (fs0 : SyncFs) : SyncOut :=
  let activeDir := cwd ++ ["ea-strategies", "active"]
  let logsDir := cwd ++ ["ea-strategies", "logs"]
  let fs1 := ensureDirFs fs0 activeDir
  let e1 := ensureDirEv fs0 activeDir
  let fs2 := ensureDirFs fs1 logsDir
  let e2 := ensureDirEv fs1 logsDir
  let eaPath := activeDir ++ [nm ++ ".mq4"]
  let fs3 := fsWrite fs2 eaPath content
  let syncLogPath := logsDir ++ [nm ++ "_sync.log"]
  let logEntry :=
    "EA Sync Attempt for " ++ (nm ++ (".mq4\nDate: " ++ (now ++ ("\nStatus: READY\n\nFile saved to: " ++
      (pathStr eaPath ++ ("\nFile size: " ++ (toString content.length ++ " bytes\n\n")))))))
  let fs4 := fsWrite fs3 syncLogPath logEntry
  match upload with
  | Except.ok r =>
    let successLog := logEntry ++ ("API SYNC SUCCESSFUL:\n" ++ (r ++ "\n"))
    { text := "✅ EA Sync Successful!\n\nAPI Result: " ++
        (r ++ ("\n\nLocal copy saved to: " ++ (pathStr eaPath ++ ("\nSync log: " ++ pathStr syncLogPath))))
      fs := fsWrite fs4 syncLogPath successLog
      trace := e1 ++ e2 ++
        [SyncEv.writeEv eaPath, SyncEv.writeEv syncLogPath, SyncEv.uploadEv, SyncEv.writeEv syncLogPath] }
  | Except.error _ =>
    let manualLog := logEntry ++
      ("HTTP Bridge Missing Endpoints:\n- POST /api/ea/upload (for EA file upload)\n- POST /api/ea/compile (for remote compilation)\n\nMANUAL DEPLOYMENT INSTRUCTIONS:\n1. Copy " ++
        (nm ++ ".mq4 to MT4/MQL4/Experts/ folder\n2. Open MetaEditor (F4 in MT4)\n3. Compile the EA (F7)\n4. Check for compilation errors\n5. Attach to chart for testing\n\nAlternatively:\n- Use develop.sh script for local management\n- Wait for HTTP bridge endpoint implementation\n"))
    { text := "⚠️ EA Sync Prepared (API endpoints not available)\n\nThe EA has been saved locally and is ready for deployment:\n\n📁 Local file: " ++
        (pathStr eaPath ++ ("\n📋 Sync log: " ++ (pathStr syncLogPath ++
          ("\n\n🔧 Manual deployment:\n1. Copy the EA file to your MT4/MQL4/Experts/ folder\n2. Compile in MetaEditor (F7)\n3. Attach to chart\n\n🚀 Automated deployment (when available):\n- Implement /api/ea/upload and /api/ea/compile endpoints in HTTP bridge\n- Then EA sync will work automatically\n\n📊 File size: " ++
            (toString content.length ++ (" bytes\n⏰ Saved at: " ++ now))))))
      fs := fsWrite fs4 syncLogPath manualLog
      trace := e1 ++ e2 ++
        [SyncEv.writeEv eaPath, SyncEv.writeEv syncLogPath, SyncEv.uploadEv, SyncEv.writeEv syncLogPath] }

/-! ## C8: the tool-dispatch request handler (src/index.ts, lines 295-341)

The `CallToolRequestSchema` handler switches on the tool name inside a
`try`; an unknown name throws, and every error reaching the handler is
caught and answered with a single `text` content item whose text is
`Error: ` followed by the message.  Tool implementations are abstracted as
a function from the tool name to an `Except` outcome. -/

/-- One entry of the `content` array of a tool response. -/
structure ContentItem where
  type : String
  text : String
deriving DecidableEq

/-- A tool response: a list of content items. -/
structure ToolResult where
  content : List ContentItem
deriving DecidableEq

/-- The names wired into the dispatch switch, in source order. -/
def toolNames : List String :=
  ["get_account_info", "get_market_data", "place_order", "get_positions", "close_position",
   "get_history", "run_backtest", "get_backtest_results", "list_experts", "get_backtest_status",
   "sync_ea", "compile_ea", "list_local_eas", "sync_ea_from_file"]

/-- The catch clause of the dispatch handler. -/
def errorContent (m : String) : ToolResult := ⟨[⟨"text", "Error: " ++ m⟩]⟩

/-- The dispatch handler: route to the named tool (or throw for an unknown
name) and convert any thrown error into the `Error: ` text response.  The
outer `Except` layer is what the MCP framework would observe; the handler
never rejects. -/
def dispatchTool (name : String) (impl : String → Except String ToolResult) :
    Except String ToolResult :=
  Except.ok
    (match (if toolNames.contains name then impl name
            else Except.error ("Unknown tool: " ++ name)) with
      | Except.ok r => r
      | Except.error m => errorContent m)

/-! ## C9: `MT4MCPServer.placeOrder` (src/index.ts, lines 396-425)

The handler builds the payload forwarded to `POST /api/order`, defaulting
the optional numeric fields with `|| 0` and the comment with `|| ""`.
Numbers are modelled as rationals: the only JavaScript values on which
`x || 0` differs from the identity on present values are `0` (mapped to
`0`) and `NaN`, which has no rational counterpart and cannot arise from the
validated inputs. -/

/-- The argument bag of the `place_order` tool. -/
structure PlaceOrderArgs where
  symbol : String
  operation : String
  lots : ℚ
  price : Option ℚ
  stop_loss : Option ℚ
  take_profit : Option ℚ
  comment : Option String
deriving DecidableEq

/-- The payload forwarded to the bridge. -/
structure OrderPayload where
  symbol : String
  operation : String
  lots : ℚ
  price : ℚ
  stop_loss : ℚ
  take_profit : ℚ
  comment : String
deriving DecidableEq

/-- JavaScript `x || d` on an optional number (absent, and the falsy 0, map
to the default). -/
def jsNumOr (d : ℚ) : Option ℚ → ℚ
  | none => d
  | some x => if x = 0 then d else x

/-- JavaScript `s || d` on an optional string (absent, and the falsy empty
string, map to the default). -/
def jsStrOr (d : String) : Option String → String
  | none => d
  | some s => if s = "" then d else s

/-- The `orderData` object built by `placeOrder`. -/
def placeOrderPayload (a : PlaceOrderArgs) : OrderPayload :=
  { symbol := a.symbol
    operation := a.operation
    lots := a.lots
    price := jsNumOr 0 a.price
    stop_loss := jsNumOr 0 a.stop_loss
    take_profit := jsNumOr 0 a.take_profit
    comment := jsStrOr "" a.comment }

/-- A `place_order` call that omits every optional argument. -/
def c9Args : PlaceOrderArgs := ⟨"EURUSD", "BUY", 1/10, none, none, none, none⟩

/-! ## Helper lemmas about the string utilities -/

theorem hasPrefixB_nil (l : List Char) : hasPrefixB l [] = true := by
  cases l <;> rfl

theorem hasPrefixB_append (l₁ l₂ pat : List Char) (h : hasPrefixB l₁ pat = true) :
    hasPrefixB (l₁ ++ l₂) pat = true := by
  induction pat generalizing l₁ with
  | nil => exact hasPrefixB_nil _
  | cons p ps ih =>
    cases l₁ with
    | nil => simp [hasPrefixB] at h
    | cons c cs =>
      simp [hasPrefixB] at h ⊢
      exact ⟨h.1, ih cs h.2⟩

theorem subAt_nil (l : List Char) : subAt l [] = true := by
  cases l <;> simp [subAt, hasPrefixB]

theorem subAt_append_left (l₁ l₂ pat : List Char) (h : subAt l₂ pat = true) :
    subAt (l₁ ++ l₂) pat = true := by
  induction l₁ with
  | nil => simpa using h
  | cons c cs ih => simp [subAt, ih]

theorem subAt_append_right (l₁ l₂ pat : List Char) (h : subAt l₁ pat = true) :
    subAt (l₁ ++ l₂) pat = true := by
  induction l₁ with
  | nil =>
    cases pat with
    | nil => exact subAt_nil l₂
    | cons p ps => simp [subAt] at h
  | cons c cs ih =>
    simp only [subAt, Bool.or_eq_true] at h ⊢
    rcases h with h | h
    · exact Or.inl (hasPrefixB_append (c :: cs) l₂ pat h)
    · exact Or.inr (ih h)

theorem strContains_append_left (s t pat : String) (h : strContains t pat = true) :
    strContains (s ++ t) pat = true := by
  unfold strContains at h ⊢
  exact subAt_append_left s.data t.data pat.data h

theorem strContains_append_right (s t pat : String) (h : strContains s pat = true) :
    strContains (s ++ t) pat = true := by
  unfold strContains at h ⊢
  exact subAt_append_right s.data t.data pat.data h

theorem strStartsWith_append (s t pat : String) (h : strStartsWith s pat = true) :
    strStartsWith (s ++ t) pat = true := by
  unfold strStartsWith at h ⊢
  exact hasPrefixB_append s.data t.data pat.data h

theorem readScan_eq_none (folders : List TermFolder)
    (h : ∀ fo ∈ folders, fo.name.length = 32 → fo.file = none) :
    readScan folders = none := by
  induction folders with
  | nil => rfl
  | cons fo rest ih =>
    have hrest := ih (fun g hg => h g (List.mem_cons_of_mem fo hg))
    by_cases h32 : fo.name.length = 32
    · have hf := h fo (List.mem_cons_self fo rest) h32
      simp [readScan, h32, hf, hrest]
    · simp [readScan, h32, hrest]

theorem readScan_append_skip (pre rest : List TermFolder)
    (h : ∀ fo ∈ pre, fo.name.length = 32 → fo.file = none) :
    readScan (pre ++ rest) = readScan rest := by
  induction pre with
  | nil => rfl
  | cons fo pre' ih =>
    have hpre := ih (fun g hg => h g (List.mem_cons_of_mem fo hg))
    by_cases h32 : fo.name.length = 32
    · have hf := h fo (List.mem_cons_self fo pre') h32
      simp [readScan, h32, hf, hpre]
    · simp [readScan, h32, hpre]

theorem writeScan_eq_none (folders : List TermFolder)
    (h : ∀ fo ∈ folders, fo.name.length = 32 → fo.writable = false) :
    writeScan folders = none := by
  induction folders with
  | nil => rfl
  | cons fo rest ih =>
    have hrest := ih (fun g hg => h g (List.mem_cons_of_mem fo hg))
    by_cases h32 : fo.name.length = 32
    · have hw := h fo (List.mem_cons_self fo rest) h32
      simp [writeScan, h32, hw, hrest]
    · simp [writeScan, h32, hrest]

theorem writeScan_append_skip (pre rest : List TermFolder)
    (h : ∀ fo ∈ pre, fo.name.length = 32 → fo.writable = false) :
    writeScan (pre ++ rest) = writeScan rest := by
  induction pre with
  | nil => rfl
  | cons fo pre' ih =>
    have hpre := ih (fun g hg => h g (List.mem_cons_of_mem fo hg))
    by_cases h32 : fo.name.length = 32
    · have hw := h fo (List.mem_cons_self fo pre') h32
      simp [writeScan, h32, hw, hpre]
    · simp [writeScan, h32, hpre]

/-! ## Claim theorems -/

/-- Claim C1, evaluated at the failing input.  On
`\x7b"symbol":"EURUSD","lots":0.10\x7d` the extractor returns the string
`EURUSD",` for key `symbol` — the value plus its closing quote and the
separating comma — not `EURUSD` as the specification states: the skip loop
consumes the opening quote, so the scanner enters its quoted mode only at
the closing quote and runs on to the next quote.  The `lots` and
absent-key parts of the claim do hold. -/
theorem c1_extract_at_spec_input :
    ExtractJsonValue c1Json "symbol" = "EURUSD\"," ∧
    ExtractJsonValue c1Json "lots" = "0.10" ∧
    ExtractJsonValue c1Json "price" = "" :=
  ⟨by decide, by decide, by decide⟩

/-- Claim C2, evaluated at a three-block positions file.  Because the
handler splits on the literal two-character text backslash-`n` instead of
on newlines, the whole file is one "line" and the decoder yields a single
bogus record; the same fold over real newline-split lines yields the three
records the specification demands. -/
theorem c2_positions_decoder_at_three_block_file :
    (apiPositions c2File).length = 1 ∧ (apiPositionsLF c2File).length = 3 :=
  ⟨by decide, by decide⟩

/-- Claim C3: when the command-file write succeeds and the result file
cannot be read, both the order and the close endpoint answer with status
200, `success: true` and a message containing `command sent` — a non-error
acknowledgment, not a failure. -/
theorem c3_missing_result_file_acknowledged (e₁ e₂ : String) :
    (orderEndpoint (Except.ok ()) (Except.error e₁)).1 =
      { status := 200, success := some true, message := some "Order command sent to MT4" } ∧
    (closeEndpoint (Except.ok ()) (Except.error e₂)).1 =
      { status := 200, success := some true, message := some "Close command sent to MT4" } ∧
    strContains "Order command sent to MT4" "command sent" = true ∧
    strContains "Close command sent to MT4" "command sent" = true :=
  ⟨rfl, rfl, by decide, by decide⟩

/-- Claim C7: after a successful command-file write, and whatever the
result-file read returns, the effect trace of each endpoint is exactly
"write the command file, sleep 1000 ms, attempt the result read" — a fixed
1000 ms delay and no waiting on any terminal acknowledgment of the write. -/
theorem c7_fixed_1000ms_delay (r₁ r₂ : Except String String) :
    (orderEndpoint (Except.ok ()) r₁).2 =
      [Eff.writeCmd "order_commands.txt", Eff.sleep 1000, Eff.readRes "order_result.txt"] ∧
    (closeEndpoint (Except.ok ()) r₂).2 =
      [Eff.writeCmd "close_commands.txt", Eff.sleep 1000, Eff.readRes "close_result.txt"] := by
  cases r₁ <;> cases r₂ <;> exact ⟨rfl, rfl⟩

/-- Claim C5: when the compiler child is spawned successfully but does not
close within 30000 ms, the timeout callback fires first: the child is
killed and the promise rejects with the timeout error. -/
theorem c5_compile_timeout (tClose : Nat) (logRead : Option String) (ex4 : Bool) (code : Int)
    (h : 30000 < tClose) :
    compileSettle none tClose logRead ex4 code =
      (CompileOutcome.rejected "Compilation timeout after 30 seconds", true) := by
  unfold compileSettle
  rw [if_neg (by omega)]

/-- Witness for C5 at a concrete overrun time. -/
theorem c5_compile_timeout_witness :
    30000 < 30001 ∧
    compileSettle none 30001 none false 0 =
      (CompileOutcome.rejected "Compilation timeout after 30 seconds", true) :=
  ⟨by decide, c5_compile_timeout 30001 none false 0 (by decide)⟩

/-- Claim C10: the `success` flag of a compile result is a function of the
log text alone — it never depends on the exit code or on whether the
`.ex4` file exists; an unreadable log defaults to error count 0 and hence
`success: true` even with no compiled output; and a log without any
`N error(s)` pattern likewise yields `success: true`. -/
theorem c10_success_only_from_log :
    (∀ (logRead : Option String) (e₁ e₂ : Bool) (k₁ k₂ : Int),
        (onCompilerClose logRead e₁ k₁).success = (onCompilerClose logRead e₂ k₂).success) ∧
    (∀ (e : Bool) (k : Int),
        (onCompilerClose none e k).success = true ∧
        (onCompilerClose none false k).compiled = false) ∧
    (∀ (lg : String) (e : Bool) (k : Int),
        errCount lg = none → (onCompilerClose (some lg) e k).success = true) := by
  refine ⟨fun lr e₁ e₂ k₁ k₂ => rfl, fun e k => ⟨rfl, rfl⟩, fun lg e k h => ?_⟩
  simp [onCompilerClose, h]

/-- Witness for C10 at a concrete log text with no error count pattern. -/
theorem c10_success_only_from_log_witness :
    errCount "MetaEditor build log" = none ∧
    (onCompilerClose (some "MetaEditor build log") true 1).success = true :=
  ⟨by decide, c10_success_only_from_log.2.2 "MetaEditor build log" true 1 (by decide)⟩

/-- Claim C8: the tool-dispatch handler never rejects; any error thrown by
a dispatched tool is answered with a single `text` content item whose text
is `Error: ` followed by the message (and so begins with `Error:`); the
response to an error depends only on the message, not on which tool or
what kind of failure produced it; and an unknown tool name is funnelled
through the very same catch clause. -/
theorem c8_dispatch_error_formatting :
    (∀ (name : String) (impl : String → Except String ToolResult),
        ∃ r, dispatchTool name impl = Except.ok r) ∧
    (∀ (name : String) (impl : String → Except String ToolResult) (m : String),
        impl name = Except.error m → toolNames.contains name = true →
        dispatchTool name impl = Except.ok (errorContent m) ∧
        strStartsWith ("Error: " ++ m) "Error:" = true) ∧
    (∀ (n₁ n₂ : String) (impl₁ impl₂ : String → Except String ToolResult) (m : String),
        impl₁ n₁ = Except.error m → impl₂ n₂ = Except.error m →
        toolNames.contains n₁ = true → toolNames.contains n₂ = true →
        dispatchTool n₁ impl₁ = dispatchTool n₂ impl₂) ∧
    (∀ (name : String) (impl : String → Except String ToolResult),
        toolNames.contains name = false →
        dispatchTool name impl = Except.ok (errorContent ("Unknown tool: " ++ name))) := by
  refine ⟨fun name impl => ⟨_, rfl⟩, fun name impl m him hc => ⟨?_, ?_⟩,
    fun n₁ n₂ impl₁ impl₂ m h₁ h₂ hc₁ hc₂ => ?_, fun name impl hc => ?_⟩
  · have hm : name ∈ toolNames := by simpa using hc
    simp [dispatchTool, hm, him]
  · exact strStartsWith_append "Error: " m "Error:" (by decide)
  · have hm₁ : n₁ ∈ toolNames := by simpa using hc₁
    have hm₂ : n₂ ∈ toolNames := by simpa using hc₂
    simp [dispatchTool, hm₁, hm₂, h₁, h₂]
  · have hm : name ∉ toolNames := by simpa using hc
    simp [dispatchTool, hm]

/-- Witness for C8 at a concrete tool name and thrown error. -/
theorem c8_dispatch_error_formatting_witness :
    dispatchTool "place_order" (fun _ => Except.error "boom") = Except.ok (errorContent "boom") ∧
    strStartsWith ("Error: " ++ "boom") "Error:" = true :=
  c8_dispatch_error_formatting.2.1 "place_order" (fun _ => Except.error "boom") "boom" rfl (by decide)

/-- Claim C6, counterexample part: with no matching terminal folder, the
write helper fails with `Failed to write MT4 file ...: No writable terminal
folder found` — an error message that does not contain the text
`not found`, contrary to the claim that both operations fail with a
`not found` error message. -/
theorem c6_write_error_lacks_not_found :
    writeMT4File demoFolders "order_commands.txt" =
      Except.error
        "Failed to write MT4 file order_commands.txt: No writable terminal folder found" ∧
    strContains
      "Failed to write MT4 file order_commands.txt: No writable terminal folder found"
      "not found" = false :=
  ⟨rfl, by decide⟩

/-- Claim C6 (amended): with zero matching terminal folders the read
helper fails with an error whose message contains `not found` and the
write helper fails with the `No writable terminal folder found` error;
with one or more matching folders, the first match in enumeration order is
used and every later folder is ignored. -/
theorem c6_folder_discovery :
    (∀ (folders : List TermFolder) (f : String),
        (∀ fo ∈ folders, fo.name.length = 32 → fo.file = none) →
        readMT4File folders f = Except.error (readFailMsg f) ∧
        strContains (readFailMsg f) "not found" = true) ∧
    (∀ (folders : List TermFolder) (f : String),
        (∀ fo ∈ folders, fo.name.length = 32 → fo.writable = false) →
        writeMT4File folders f = Except.error (writeFailMsg f)) ∧
    (∀ (pre post : List TermFolder) (fo : TermFolder) (f c : String),
        fo.name.length = 32 → fo.file = some c →
        (∀ g ∈ pre, g.name.length = 32 → g.file = none) →
        readMT4File (pre ++ fo :: post) f = Except.ok (strTrim c)) ∧
    (∀ (pre post : List TermFolder) (fo : TermFolder) (f : String),
        fo.name.length = 32 → fo.writable = true →
        (∀ g ∈ pre, g.name.length = 32 → g.writable = false) →
        writeMT4File (pre ++ fo :: post) f = Except.ok fo.name) := by
  refine ⟨fun folders f h => ⟨?_, ?_⟩, fun folders f h => ?_,
    fun pre post fo f c h32 hf h => ?_, fun pre post fo f h32 hw h => ?_⟩
  · simp [readMT4File, readScan_eq_none folders h]
  · unfold readFailMsg
    exact strContains_append_left _ _ _ (strContains_append_left _ _ _
      (strContains_append_left _ _ _ (strContains_append_left _ _ _ (by decide))))
  · simp [writeMT4File, writeScan_eq_none folders h]
  · rw [readMT4File, readScan_append_skip pre (fo :: post) h]
    simp [readScan, h32, hf]
  · rw [writeMT4File, writeScan_append_skip pre (fo :: post) h]
    simp [writeScan, h32, hw]

/-- Witness for C6 at a concrete listing with no 32-character folder. -/
theorem c6_folder_discovery_witness :
    readMT4File demoFolders "positions.txt" = Except.error (readFailMsg "positions.txt") ∧
    strContains (readFailMsg "positions.txt") "not found" = true :=
  c6_folder_discovery.1 demoFolders "positions.txt" (by decide)

/-- Claim C4: on an upload failure, `syncEA` leaves the local copy of the
EA source on disk (it was written before the upload was attempted, as the
trace split shows), and returns the normal `EA Sync Prepared` content
response containing manual deployment instructions rather than an
exception. -/
theorem c4_sync_ea_upload_failure (cwd : List String) (nm content now e : String) (fs0 : SyncFs) :
    fsRead (syncEA cwd nm content now (Except.error e) fs0).fs.files
        (cwd ++ ["ea-strategies", "active", nm ++ ".mq4"]) = some content ∧
    strContains (syncEA cwd nm content now (Except.error e) fs0).text "Manual deployment" = true ∧
    strContains (syncEA cwd nm content now (Except.error e) fs0).text "EA Sync Prepared" = true ∧
    (∃ pre post,
      (syncEA cwd nm content now (Except.error e) fs0).trace = pre ++ SyncEv.uploadEv :: post ∧
      SyncEv.writeEv (cwd ++ ["ea-strategies", "active", nm ++ ".mq4"]) ∈ pre) := by
  have hne : ¬ ((cwd ++ ["ea-strategies", "logs"]) ++ [nm ++ "_sync.log"] =
      cwd ++ ["ea-strategies", "active", nm ++ ".mq4"]) := by
    rw [List.append_assoc]
    simp
  refine ⟨?_, ?_, ?_, ?_⟩
  · simp only [syncEA, fsWrite]
    rw [fsRead, if_neg hne, fsRead, if_neg hne, fsRead,
      if_pos (by simp)]
  · simp only [syncEA]
    exact strContains_append_left _ _ _ (strContains_append_left _ _ _
      (strContains_append_left _ _ _ (strContains_append_left _ _ _
        (strContains_append_right _ _ _ (by decide)))))
  · simp only [syncEA]
    exact strContains_append_right _ _ _ (by decide)
  · simp only [syncEA]
    refine ⟨ensureDirEv fs0 (cwd ++ ["ea-strategies", "active"]) ++
        ensureDirEv (ensureDirFs fs0 (cwd ++ ["ea-strategies", "active"]))
          (cwd ++ ["ea-strategies", "logs"]) ++
        [SyncEv.writeEv ((cwd ++ ["ea-strategies", "active"]) ++ [nm ++ ".mq4"]),
         SyncEv.writeEv ((cwd ++ ["ea-strategies", "logs"]) ++ [nm ++ "_sync.log"])],
      [SyncEv.writeEv ((cwd ++ ["ea-strategies", "logs"]) ++ [nm ++ "_sync.log"])], ?_, ?_⟩
    · simp [List.append_assoc]
    · simp [List.append_assoc]

/-- Claim C9: `placeOrder` forwards `symbol`, `operation` and `lots`
unchanged, substitutes 0 for an absent `price`, `stop_loss` or
`take_profit`, and the empty string for an absent `comment`. -/
theorem c9_place_order_defaults (a : PlaceOrderArgs) :
    (a.price = none → (placeOrderPayload a).price = 0) ∧
    (a.stop_loss = none → (placeOrderPayload a).stop_loss = 0) ∧
    (a.take_profit = none → (placeOrderPayload a).take_profit = 0) ∧
    (a.comment = none → (placeOrderPayload a).comment = "") ∧
    (placeOrderPayload a).symbol = a.symbol ∧
    (placeOrderPayload a).operation = a.operation ∧
    (placeOrderPayload a).lots = a.lots := by
  refine ⟨fun h => ?_, fun h => ?_, fun h => ?_, fun h => ?_, rfl, rfl, rfl⟩ <;>
    simp [placeOrderPayload, jsNumOr, jsStrOr, h]

/-- Witness for C9 at a call omitting every optional argument. -/
theorem c9_place_order_defaults_witness :
    c9Args.price = none ∧ (placeOrderPayload c9Args).price = 0 ∧
    c9Args.comment = none ∧ (placeOrderPayload c9Args).comment = "" :=
  ⟨rfl, (c9_place_order_defaults c9Args).1 rfl, rfl,
    (c9_place_order_defaults c9Args).2.2.2.1 rfl⟩

end MT4Bridge
